import Mathlib

/-!
Shallow embedding of the Kaleidoscope chapter-01 lexer and parser
(`01-Implementing_a_Parser_and_AST/main.cpp`).

The C++ lexer reads characters from stdin with a one-character lookahead
(`static int LastChar`, initially a space).  We model the remaining input as
a `List Char` and the lookahead as an `Option Char` (`none` models `EOF`).
`gettok` returns the produced token together with the new lexer state.

The C++ global `double NumVal = strtod(NumStr, ...)` is a floating-point
value; we carry the accumulated numeral string `NumStr` itself as the
payload of a number token and of `NumberExprAST` (distinct literals in the
inputs of interest have distinct numeral texts, and no claim depends on
floating-point arithmetic).  Likewise `IdentifierStr` is carried on the
identifier token, as the design notes of the spec themselves suggest.
-/

namespace Kaleidoscope

/-- Tokens, mirroring `enum Token` plus the payload globals: `tok_eof`,
`tok_def`, `tok_extern` (constructor `ext`), `tok_identifier` with
`IdentifierStr`, `tok_number` with `NumStr`, and a plain character returned
as its ascii value (constructor `ch`). -/
inductive Tok where
  | eof : Tok
  | tdef : Tok
  | ext : Tok
  | ident : String → Tok
  | num : String → Tok
  | ch : Char → Tok
deriving DecidableEq, Repr

/-- C `isspace` in the default locale: space, tab, newline, vertical tab,
form feed, carriage return. -/
def isSpaceC (c : Char) : Bool :=
  c = ' ' || c = '\t' || c = '\n' || c = '\x0b' || c = '\x0c' || c = '\r'

/-- Models `getchar()` on the remaining input: `none` models `EOF`. -/
def getchar : List Char → Option Char × List Char
  | [] => (none, [])
  | c :: cs => (some c, cs)

/-- The identifier loop of `gettok`:
`while (isalnum((LastChar = getchar()))) IdentifierStr += LastChar;`.
Returns the accumulated string, the new lookahead and the remaining input. -/
def readIdent (acc : String) : List Char → String × Option Char × List Char
  | [] => (acc, none, [])
  | c :: cs =>
    if c.isAlphanum then readIdent (acc.push c) cs else (acc, some c, cs)

/-- The numeral loop of `gettok`:
`do { NumStr += LastChar; LastChar = getchar(); } while (isdigit || '.');`.
`last` is the current `LastChar` (already known to be a digit or a dot on
entry, as in the do-while). -/
def readNum (acc : String) (last : Char) : List Char → String × Option Char × List Char
  | [] => ((acc.push last), none, [])
  | c :: cs =>
    if c.isDigit || c = '.' then readNum (acc.push last) c cs
    else ((acc.push last), some c, cs)

/-- Models `gettok()`: returns the next token together with the new lexer state
(lookahead character and remaining input).  Branches in source order:
whitespace skipping, identifier/keyword, number, `#`-comment, `EOF`, and
the verbatim single-character fallthrough.

The whitespace `while` loop and the comment-skipping `do`-`while` loop are
realised as tail recursion on the remaining input: a whitespace lookahead
steps to the next character, and while inside a comment the lookahead is
re-entered as `'#'`, which discards characters exactly as the loop does —
the loop body only tests and throws the characters away — until the
newline, carriage return or `EOF` that ends the comment; after a comment
that ends at a newline the C code restarts `gettok()` (`if (LastChar !=
EOF) return gettok();`), which is the same tail call. -/
def gettok : Option Char → List Char → Tok × Option Char × List Char
  | none, rest => (Tok.eof, none, rest)
  | some lc, rest =>
    if isSpaceC lc then
      match rest with
      | [] => (Tok.eof, none, [])
      | c :: cs => gettok (some c) cs
    else if lc.isAlpha then
      match readIdent (String.singleton lc) rest with
      | (s, l, r) =>
        if s = "def" then (Tok.tdef, l, r)
        else if s = "extern" then (Tok.ext, l, r)
        else (Tok.ident s, l, r)
    else if lc.isDigit || lc = '.' then
      match readNum "" lc rest with
      | (s, l, r) => (Tok.num s, l, r)
    else if lc = '#' then
      match rest with
      | [] => (Tok.eof, none, [])
      | c :: cs =>
        if c = '\n' || c = '\r' then gettok (some c) cs
        else gettok (some '#') cs
    else
      (Tok.ch lc, getchar rest)

/-- Repeated calls to `gettok` until `tok_eof`, collecting the produced
tokens.  `fuel` bounds the number of calls; `tokenize` below supplies more
fuel than any input can consume (each produced token consumes input). -/
def tokenizeAux : Nat → Option Char → List Char → List Tok
  | 0, _, _ => []
  | fuel + 1, last, rest =>
    match gettok last rest with
    | (Tok.eof, _, _) => []
    | (t, last2, rest2) => t :: tokenizeAux fuel last2 rest2

/-- The token sequence of an input string, starting from the initial lexer
state of the program (`LastChar = ' '`), up to and excluding `tok_eof`. -/
def tokenize (s : String) : List Tok :=
  tokenizeAux (2 * s.length + 2) (some ' ') s.toList

/-!
The AST (`ExprAST` and its subclasses, `PrototypeAST`, `FunctionAST`).  The
`double Val` of `NumberExprAST` is carried as the numeral string, matching
the number-token payload above.
-/

/-- Models `ExprAST` with its four concrete subclasses. -/
inductive Expr where
  | NumberExpr : String → Expr
  | VariableExpr : String → Expr
  | BinaryExpr : Char → Expr → Expr → Expr
  | CallExpr : String → List Expr → Expr

/-- Models `PrototypeAST`: function name and argument names. -/
structure PrototypeAST where
  name : String
  args : List String

/-- Models `FunctionAST`: prototype and body. -/
structure FunctionAST where
  proto : PrototypeAST
  body : Expr

/-!
The parser.  The state of the C++ parser is the one-token lookahead `CurTok`,
refilled by `getNextToken()` from the lexer.  We model the parser state as
the `List Tok` of tokens not yet consumed: `CurTok` is `curTok ts` (the
head, or `tok_eof` once the list is exhausted — the lexer returns `tok_eof`
forever at end of input), and `getNextToken()` is `advance ts`.  Each
parsing function returns its result (`none` models the `nullptr` failure
sentinel of `LogError`/`LogErrorP`) together with the token state at
return, exactly as the C++ functions leave `CurTok`.

The mutually recursive expression rules take a `fuel : Nat` argument that
is decremented on every nested call, making the recursion structural; the
concrete theorems below supply more fuel than their inputs need, and with
exhausted fuel a rule fails without consuming input.
-/

/-- Models `CurTok`: the current lookahead token. -/
def curTok : List Tok → Tok
  | [] => Tok.eof
  | t :: _ => t

/-- Models `getNextToken()`: consume the current token. -/
def advance : List Tok → List Tok
  | [] => []
  | _ :: ts => ts

/-- Models `BinopPrecedence`, the `std::map<char, int>` as installed by `main`:
`'<'`→10, `'+'`→20, `'-'`→20, `'*'`→40; `operator[]` yields the
value-initialised 0 for any other key. -/
def BinopPrecedence (c : Char) : Int :=
  if c = '<' then 10
  else if c = '+' then 20
  else if c = '-' then 20
  else if c = '*' then 40
  else 0

/-- Models `GetTokPrecedence()`: `-1` unless `CurTok` is an ascii character
(`isascii`, i.e. code ≤ 127 — the negative token kinds are not ascii) with
a positive precedence table entry. -/
def GetTokPrecedence (t : Tok) : Int :=
  match t with
  | Tok.ch c =>
    if c.toNat ≤ 127 then
      let tokPrec := BinopPrecedence c
      if tokPrec ≤ 0 then -1 else tokPrec
    else -1
  | _ => -1

/-- Models `ParseNumberExpr()`: build a `NumberExprAST` from `NumVal` (carried
here as the numeral string, passed in by `ParsePrimary` from the current
number token) and consume the number token. -/
def ParseNumberExpr (numVal : String) (ts : List Tok) : Option Expr × List Tok :=
  (some (Expr.NumberExpr numVal), advance ts)

mutual

/-- Models `ParseExpression()`: `primary binoprhs`. -/
def ParseExpression : Nat → List Tok → Option Expr × List Tok
  | 0, ts => (none, ts)
  | fuel + 1, ts =>
    match ParsePrimary fuel ts with
    | (none, ts1) => (none, ts1)
    | (some lhs, ts1) => ParseBinOpRHS fuel 0 lhs ts1

/-- Models `ParsePrimary()`: dispatch on `CurTok` — identifier, number, `'('`, and
the `LogError("unknown token when expecting an expression")` default. -/
def ParsePrimary : Nat → List Tok → Option Expr × List Tok
  | 0, ts => (none, ts)
  | fuel + 1, ts =>
    match curTok ts with
    | Tok.ident s => ParseIdentifierExpr fuel s ts
    | Tok.num s => ParseNumberExpr s ts
    | Tok.ch c => if c = '(' then ParseParenExpr fuel ts else (none, ts)
    | _ => (none, ts)

/-- Models `ParseParenExpr()`: eat `'('`, parse an expression, require and eat
`')'` (else `LogError("expected ')'")`), and return the inner expression
itself — no grouping node. -/
def ParseParenExpr : Nat → List Tok → Option Expr × List Tok
  | 0, ts => (none, ts)
  | fuel + 1, ts =>
    let ts1 := advance ts
    match ParseExpression fuel ts1 with
    | (none, ts2) => (none, ts2)
    | (some v, ts2) =>
      if curTok ts2 ≠ Tok.ch ')' then (none, ts2)
      else (some v, advance ts2)

/-- Models `ParseIdentifierExpr()`: `idName` is `IdentifierStr` for the current
identifier token.  Eat the identifier; without a following `'('` return a
`VariableExprAST`; otherwise eat `'('`, collect the comma-separated
argument expressions unless `')'` follows immediately, eat `')'`, and
return a `CallExprAST`. -/
def ParseIdentifierExpr : Nat → String → List Tok → Option Expr × List Tok
  | 0, _, ts => (none, ts)
  | fuel + 1, idName, ts =>
    let ts1 := advance ts
    if curTok ts1 ≠ Tok.ch '(' then (some (Expr.VariableExpr idName), ts1)
    else
      let ts2 := advance ts1
      if curTok ts2 = Tok.ch ')' then (some (Expr.CallExpr idName []), advance ts2)
      else
        match ParseCallArgs fuel [] ts2 with
        | (none, ts3) => (none, ts3)
        | (some args, ts3) => (some (Expr.CallExpr idName args), advance ts3)

/-- The argument-collecting `while (true)` loop of `ParseIdentifierExpr`:
parse an expression and push it (failure propagates); stop at `')'`;
otherwise require `','` (else
`LogError("Expected ')' or ',' in argument list")`), eat it and repeat.
Returns with `CurTok` on the closing `')'`. -/
def ParseCallArgs : Nat → List Expr → List Tok → Option (List Expr) × List Tok
  | 0, _, ts => (none, ts)
  | fuel + 1, acc, ts =>
    match ParseExpression fuel ts with
    | (none, ts1) => (none, ts1)
    | (some arg, ts1) =>
      if curTok ts1 = Tok.ch ')' then (some (acc ++ [arg]), ts1)
      else if curTok ts1 ≠ Tok.ch ',' then (none, ts1)
      else ParseCallArgs fuel (acc ++ [arg]) (advance ts1)

/-- Models `ParseBinOpRHS(ExprPrec, LHS)`: the precedence-climbing loop.  Return
`LHS` if the precedence of the current token is below `ExprPrec`; otherwise eat
the operator, parse a `primary` right-hand side, let a tighter-binding next
operator absorb it first via the recursive call at `TokPrec + 1`, fold
`(LHS op RHS)` and continue the loop (the `while (true)` is the tail call
with the same `ExprPrec`).  The non-`ch` fallback arm is unreachable for
the nonnegative `ExprPrec` values the source uses, since such tokens have
precedence `-1 < ExprPrec`. -/
def ParseBinOpRHS : Nat → Int → Expr → List Tok → Option Expr × List Tok
  | 0, _, _, ts => (none, ts)
  | fuel + 1, exprPrec, lhs, ts =>
    let tokPrec := GetTokPrecedence (curTok ts)
    if tokPrec < exprPrec then (some lhs, ts)
    else
      match curTok ts with
      | Tok.ch binOp =>
        let ts1 := advance ts
        match ParsePrimary fuel ts1 with
        | (none, ts2) => (none, ts2)
        | (some rhs, ts2) =>
          let nextPrec := GetTokPrecedence (curTok ts2)
          if tokPrec < nextPrec then
            match ParseBinOpRHS fuel (tokPrec + 1) rhs ts2 with
            | (none, ts3) => (none, ts3)
            | (some rhs2, ts3) =>
              ParseBinOpRHS fuel exprPrec (Expr.BinaryExpr binOp lhs rhs2) ts3
          else
            ParseBinOpRHS fuel exprPrec (Expr.BinaryExpr binOp lhs rhs) ts2
      | _ => (some lhs, ts)

end

/-- The parameter-name loop of `ParsePrototype`:
`while (getNextToken() == tok_identifier) ArgNames.push_back(IdentifierStr);`
— advance first, then collect while the new token is an identifier.
Returns with `CurTok` on the first non-identifier token. -/
def readProtoArgs (acc : List String) : List Tok → List String × List Tok
  | [] => (acc, [])
  | _ :: ts =>
    match curTok ts with
    | Tok.ident s => readProtoArgs (acc ++ [s]) ts
    | _ => (acc, ts)

/-- Models `ParsePrototype()`: require an identifier (the function name), require
`'('`, collect identifier parameter names, require `')'`, eat it.  Each
violation is a `LogErrorP` returning the failure sentinel. -/
def ParsePrototype (ts : List Tok) : Option PrototypeAST × List Tok :=
  match curTok ts with
  | Tok.ident fnName =>
    let ts1 := advance ts
    if curTok ts1 ≠ Tok.ch '(' then (none, ts1)
    else
      match readProtoArgs [] ts1 with
      | (argNames, ts2) =>
        if curTok ts2 ≠ Tok.ch ')' then (none, ts2)
        else (some ⟨fnName, argNames⟩, advance ts2)
  | _ => (none, ts)

/-- Models `ParseDefinition()`: eat `def`, parse a prototype, parse the body
expression, combine into a `FunctionAST`; sub-rule failures propagate. -/
def ParseDefinition (fuel : Nat) (ts : List Tok) : Option FunctionAST × List Tok :=
  let ts1 := advance ts
  match ParsePrototype ts1 with
  | (none, ts2) => (none, ts2)
  | (some proto, ts2) =>
    match ParseExpression fuel ts2 with
    | (none, ts3) => (none, ts3)
    | (some e, ts3) => (some ⟨proto, e⟩, ts3)

/-- Models `ParseTopLevelExpr()`: parse a bare expression and wrap it in a
`FunctionAST` with the anonymous prototype `__anon_expr` and no
parameters. -/
def ParseTopLevelExpr (fuel : Nat) (ts : List Tok) : Option FunctionAST × List Tok :=
  match ParseExpression fuel ts with
  | (none, ts1) => (none, ts1)
  | (some e, ts1) => (some ⟨⟨"__anon_expr", []⟩, e⟩, ts1)

/-!
Theorems settling the claims.  Concrete inputs run end to end: the claim
input string is tokenized by the embedded lexer and fed to the embedded
parsing routine named by the claim, with ample fuel.
-/

/-- Claim C1: for the input expression `1+2*3`, `ParseTopLevelExpr` (via
`ParseExpression` and `ParseBinOpRHS` with the precedence table `<`=10,
`+`=20, `-`=20, `*`=40) produces a body equal to
`BinaryExpr('+', Number(1), BinaryExpr('*', Number(2), Number(3)))` — the
higher-precedence `*` binds tighter — and never
`BinaryExpr('*', BinaryExpr('+', 1, 2), 3)`. -/
theorem C1_mul_binds_tighter :
    (BinopPrecedence '<' = 10 ∧ BinopPrecedence '+' = 20 ∧
      BinopPrecedence '-' = 20 ∧ BinopPrecedence '*' = 40) ∧
    ParseTopLevelExpr 32 (tokenize "1+2*3") =
      (some ⟨⟨"__anon_expr", []⟩,
        Expr.BinaryExpr '+' (Expr.NumberExpr "1")
          (Expr.BinaryExpr '*' (Expr.NumberExpr "2") (Expr.NumberExpr "3"))⟩, []) ∧
    (ParseTopLevelExpr 32 (tokenize "1+2*3")).1.map FunctionAST.body ≠
      some (Expr.BinaryExpr '*'
        (Expr.BinaryExpr '+' (Expr.NumberExpr "1") (Expr.NumberExpr "2"))
        (Expr.NumberExpr "3")) := by
  refine ⟨⟨rfl, rfl, rfl, rfl⟩, rfl, ?_⟩
  have h : (ParseTopLevelExpr 32 (tokenize "1+2*3")).1.map FunctionAST.body =
      some (Expr.BinaryExpr '+' (Expr.NumberExpr "1")
        (Expr.BinaryExpr '*' (Expr.NumberExpr "2") (Expr.NumberExpr "3"))) := rfl
  rw [h]
  simp only [ne_eq, Option.some.injEq]
  intro hbad
  injection hbad with h1 h2 h3
  exact absurd h1 (by decide)

/-- Claim C2: for the input expression `1-2-3`, parsing is
left-associative for equal-precedence operators: the body equals
`BinaryExpr('-', BinaryExpr('-', Number(1), Number(2)), Number(3))` and
not `BinaryExpr('-', Number(1), BinaryExpr('-', Number(2), Number(3)))`. -/
theorem C2_left_assoc :
    ParseTopLevelExpr 32 (tokenize "1-2-3") =
      (some ⟨⟨"__anon_expr", []⟩,
        Expr.BinaryExpr '-'
          (Expr.BinaryExpr '-' (Expr.NumberExpr "1") (Expr.NumberExpr "2"))
          (Expr.NumberExpr "3")⟩, []) ∧
    (ParseTopLevelExpr 32 (tokenize "1-2-3")).1.map FunctionAST.body ≠
      some (Expr.BinaryExpr '-' (Expr.NumberExpr "1")
        (Expr.BinaryExpr '-' (Expr.NumberExpr "2") (Expr.NumberExpr "3"))) := by
  refine ⟨rfl, ?_⟩
  have h : (ParseTopLevelExpr 32 (tokenize "1-2-3")).1.map FunctionAST.body =
      some (Expr.BinaryExpr '-'
        (Expr.BinaryExpr '-' (Expr.NumberExpr "1") (Expr.NumberExpr "2"))
        (Expr.NumberExpr "3")) := rfl
  rw [h]
  simp only [ne_eq, Option.some.injEq]
  intro hbad
  injection hbad with h1 h2 h3
  injection h2

/-- Claim C3: parsing `def foo(x y) x + y` with `ParseDefinition` succeeds
and returns a function whose prototype has name `foo` and parameter list
exactly `["x", "y"]` in that order, and whose body equals
`BinaryExpr('+', Variable("x"), Variable("y"))`. -/
theorem C3_definition_round_trip :
    ParseDefinition 32 (tokenize "def foo(x y) x + y") =
      (some ⟨⟨"foo", ["x", "y"]⟩,
        Expr.BinaryExpr '+' (Expr.VariableExpr "x") (Expr.VariableExpr "y")⟩, []) := rfl

/-- Claim C4: parsing the call expression `foo(y, 4.0)` with
`ParseIdentifierExpr` returns a `CallExpr` with callee `foo` and argument
list exactly `[Variable("y"), Number(4.0)]`, in the order parsed (the
numeric payload is carried as the numeral text `4.0`). -/
theorem C4_call_args_order :
    ParseIdentifierExpr 32 "foo" (tokenize "foo(y, 4.0)") =
      (some (Expr.CallExpr "foo"
        [Expr.VariableExpr "y", Expr.NumberExpr "4.0"]), []) := rfl

/-- Claim C5: every token that is not a single ascii character with a
positive entry in the precedence table (keywords, identifiers, numbers,
end-of-input, and characters absent from the table or mapped to a value
≤ 0) has precedence lookup `-1`, and `ParseBinOpRHS` called with minimum
precedence 0 on such a current token returns its left operand unchanged
without consuming any token. -/
theorem C5_non_operator_precedence (t : Tok)
    (h : ∀ c : Char, t = Tok.ch c → ¬ (c.toNat ≤ 127 ∧ 0 < BinopPrecedence c)) :
    GetTokPrecedence t = -1 ∧
      ∀ (fuel : Nat) (lhs : Expr) (ts : List Tok),
        ParseBinOpRHS (fuel + 1) 0 lhs (t :: ts) = (some lhs, t :: ts) := by
  have hp : GetTokPrecedence t = -1 := by
    cases t with
    | ch c =>
      have hc := h c rfl
      unfold GetTokPrecedence
      by_cases h127 : c.toNat ≤ 127
      · have hle : BinopPrecedence c ≤ 0 := by
          by_contra hgt
          exact hc ⟨h127, by omega⟩
        simp [h127, hle]
      · simp [h127]
    | eof => rfl
    | tdef => rfl
    | ext => rfl
    | ident s => rfl
    | num s => rfl
  refine ⟨hp, ?_⟩
  intro fuel lhs ts
  simp [ParseBinOpRHS, curTok, hp]

/-- Witness for C5: instantiated at the token `;` (absent from the table)
with a concrete left operand and stream. -/
theorem C5_non_operator_precedence_witness :
    GetTokPrecedence (Tok.ch ';') = -1 ∧
      ParseBinOpRHS 1 0 (Expr.NumberExpr "7") [Tok.ch ';'] =
        (some (Expr.NumberExpr "7"), [Tok.ch ';']) := by
  have h : ∀ c : Char, Tok.ch ';' = Tok.ch c →
      ¬ (c.toNat ≤ 127 ∧ 0 < BinopPrecedence c) := by
    intro c hc
    injection hc with hc2
    subst hc2
    decide
  obtain ⟨hp, hb⟩ := C5_non_operator_precedence (Tok.ch ';') h
  exact ⟨hp, hb 0 (Expr.NumberExpr "7") []⟩

/-- Claim C6: `ParseParenExpr` consumes `(`, parses a full expression,
requires the then-current token to be `)` (failing otherwise), consumes
it, and returns the inner expression itself with no grouping node added;
consequently `(1+2)*3` parses as
`BinaryExpr('*', BinaryExpr('+', Number(1), Number(2)), Number(3))`. -/
theorem C6_paren_expr :
    (∀ (fuel : Nat) (ts ts2 : List Tok) (e : Expr),
        ParseExpression fuel (advance ts) = (some e, ts2) →
        ParseParenExpr (fuel + 1) ts =
          if curTok ts2 = Tok.ch ')' then (some e, advance ts2) else (none, ts2)) ∧
    ParseTopLevelExpr 32 (tokenize "(1+2)*3") =
      (some ⟨⟨"__anon_expr", []⟩,
        Expr.BinaryExpr '*'
          (Expr.BinaryExpr '+' (Expr.NumberExpr "1") (Expr.NumberExpr "2"))
          (Expr.NumberExpr "3")⟩, []) := by
  refine ⟨?_, rfl⟩
  intro fuel ts ts2 e h
  simp only [ParseParenExpr, h, ite_not]

/-- Witness for C6: the universal part instantiated on the concrete stream
`( 1 )`. -/
theorem C6_paren_expr_witness :
    ParseParenExpr 3 [Tok.ch '(', Tok.num "1", Tok.ch ')'] =
      (some (Expr.NumberExpr "1"), []) := by
  have h := C6_paren_expr.1 2 [Tok.ch '(', Tok.num "1", Tok.ch ')']
    [Tok.ch ')'] (Expr.NumberExpr "1") rfl
  simpa using h

/-- Claim C7: rules that depend on a sub-rule return the failure sentinel
immediately when that sub-rule fails, without consuming any further input
beyond what the failed sub-rule already consumed: prototype failure inside
`ParseDefinition`, inner-expression failure inside `ParseParenExpr`, and
right-hand-side primary failure inside `ParseBinOpRHS` all return failure
with the token lookahead exactly where the failing sub-rule left it. -/
theorem C7_failure_propagation :
    (∀ (fuel : Nat) (ts ts2 : List Tok),
        ParsePrototype (advance ts) = (none, ts2) →
        ParseDefinition fuel ts = (none, ts2)) ∧
    (∀ (fuel : Nat) (ts ts2 : List Tok),
        ParseExpression fuel (advance ts) = (none, ts2) →
        ParseParenExpr (fuel + 1) ts = (none, ts2)) ∧
    (∀ (fuel : Nat) (c : Char) (lhs : Expr) (ts ts2 : List Tok),
        curTok ts = Tok.ch c → 0 ≤ GetTokPrecedence (Tok.ch c) →
        ParsePrimary fuel (advance ts) = (none, ts2) →
        ParseBinOpRHS (fuel + 1) 0 lhs ts = (none, ts2)) := by
  refine ⟨?_, ?_, ?_⟩
  · intro fuel ts ts2 h
    simp only [ParseDefinition, h]
  · intro fuel ts ts2 h
    simp only [ParseParenExpr, h]
  · intro fuel c lhs ts ts2 hcur hprec h
    simp only [ParseBinOpRHS, hcur, h]
    have hlt : ¬ GetTokPrecedence (Tok.ch c) < 0 := by omega
    simp [hlt]

/-- Witness for C7: the three parts instantiated on concrete failing
streams — a bare `def`, a `(` followed by end of input, and a dangling
`+`. -/
theorem C7_failure_propagation_witness :
    ParseDefinition 5 [Tok.tdef] = (none, []) ∧
    ParseParenExpr 2 [Tok.ch '('] = (none, []) ∧
    ParseBinOpRHS 2 0 (Expr.NumberExpr "9") [Tok.ch '+'] = (none, []) := by
  refine ⟨C7_failure_propagation.1 5 [Tok.tdef] [] rfl,
    C7_failure_propagation.2.1 1 [Tok.ch '('] [] rfl,
    C7_failure_propagation.2.2 1 '+' (Expr.NumberExpr "9") [Tok.ch '+'] []
      rfl (by decide) rfl⟩

/-- Claim C8: comments never produce a token.  Concretely, the character
stream `1 + 2 # comment\n+ 3` tokenizes to exactly the same token sequence
as `1 + 2 + 3`; and in general, `gettok` entered on a `#` followed by any
comment characters up to the terminating newline or carriage return
behaves exactly as `gettok` entered past the whole comment, so no token
ever carries characters from inside a comment. -/
theorem C8_comments_elided :
    tokenize "1 + 2 # comment\n+ 3" = tokenize "1 + 2 + 3" ∧
    tokenize "1 + 2 + 3" =
      [Tok.num "1", Tok.ch '+', Tok.num "2", Tok.ch '+', Tok.num "3"] ∧
    ∀ (body rest : List Char) (d : Char),
      (∀ c ∈ body, c ≠ '\n' ∧ c ≠ '\r') → (d = '\n' ∨ d = '\r') →
      gettok (some '#') (body ++ d :: rest) = gettok (some d) rest := by
  refine ⟨rfl, rfl, ?_⟩
  intro body rest d hbody hd
  induction body with
  | nil =>
    rcases hd with h | h <;> subst h <;> simp [gettok]
  | cons c cs ih =>
    have hc := hbody c (List.mem_cons_self c cs)
    have hrec := ih (fun x hx => hbody x (List.mem_cons_of_mem c hx))
    have h1 : gettok (some '#') (c :: (cs ++ d :: rest)) =
        if c = '\n' || c = '\r' then gettok (some c) (cs ++ d :: rest)
        else gettok (some '#') (cs ++ d :: rest) := rfl
    rw [List.cons_append, h1, if_neg, hrec]
    simp [hc.1, hc.2]

/-- Witness for C8: the comment-elision part instantiated on the comment
body `x`, newline terminator, and remaining input `7`. -/
theorem C8_comments_elided_witness :
    gettok (some '#') (['x'] ++ '\n' :: ['7']) = gettok (some '\n') ['7'] ∧
    gettok (some '\n') ['7'] = (Tok.num "7", none, []) :=
  ⟨C8_comments_elided.2.2 ['x'] ['7'] '\n' (by decide) (Or.inl rfl), rfl⟩

/-- Counterexample to claim C9 as stated: a vertical-tab character is NOT
emitted as a single-character token — C `isspace` also covers vertical tab
(and form feed), so the tokenizer skips it as whitespace: on the input
consisting of a vertical tab followed by `1`, the next token is the number
`1`, not a verbatim vertical-tab character token. -/
theorem C9_counterexample :
    gettok (some '\x0b') ['1'] = (Tok.num "1", none, []) ∧
    (gettok (some '\x0b') ['1']).1 ≠ Tok.ch '\x0b' := by
  exact ⟨rfl, by decide⟩

/-- Claim C9 as amended: the tokenizer skips exactly the C `isspace`
whitespace characters — space, tab, newline, vertical tab, form feed and
carriage return — and for every other current character that is not
alphabetic, not a digit or `.`, not `#` (and not end-of-input), `gettok`
emits a single-character token carrying that character verbatim and
advances one character. -/
theorem C9_whitespace_amended :
    (∀ c : Char, isSpaceC c = true ↔
      (c = ' ' ∨ c = '\t' ∨ c = '\n' ∨ c = '\x0b' ∨ c = '\x0c' ∨ c = '\r')) ∧
    (∀ (c c2 : Char) (cs : List Char), isSpaceC c = true →
      gettok (some c) (c2 :: cs) = gettok (some c2) cs) ∧
    (∀ (c : Char) (rest : List Char), isSpaceC c = false →
      c.isAlpha = false → (c.isDigit || c = '.') = false → c ≠ '#' →
      gettok (some c) rest = (Tok.ch c, getchar rest)) := by
  refine ⟨?_, ?_, ?_⟩
  · intro c
    simp [isSpaceC]
    tauto
  · intro c c2 cs h
    simp [gettok, h]
  · intro c rest h1 h2 h3 h4
    rw [gettok.eq_def]
    simp [h1, h2, h3, h4]

/-- Witness for the amended C9: the skipping part instantiated at a
vertical tab, and the verbatim part at the semicolon character. -/
theorem C9_whitespace_amended_witness :
    gettok (some '\x0b') ('1' :: []) = gettok (some '1') [] ∧
    gettok (some ';') ['1'] = (Tok.ch ';', getchar ['1']) :=
  ⟨C9_whitespace_amended.2.1 '\x0b' '1' [] rfl,
    C9_whitespace_amended.2.2 ';' ['1'] rfl rfl rfl (by decide)⟩

/-- Claim C10: a call with an empty argument list is accepted: for the
input `foo()`, `ParseIdentifierExpr` returns a `CallExpr` with callee
`foo` and an empty argument sequence, with no error produced and the
lookahead advanced past the closing `)` (the same holds end to end through
`ParseTopLevelExpr`). -/
theorem C10_empty_call :
    ParseIdentifierExpr 32 "foo" (tokenize "foo()") =
      (some (Expr.CallExpr "foo" []), []) ∧
    ParseTopLevelExpr 32 (tokenize "foo()") =
      (some ⟨⟨"__anon_expr", []⟩, Expr.CallExpr "foo" []⟩, []) :=
  ⟨rfl, rfl⟩

end Kaleidoscope
